import Mathlib

/-!
Verification of the full-screen-triangle vertex shader
(`src/shaders/full_screen.vert.cxx`).

The shader is:

  [[spirv::out(0)]]
  vec2 out_uv;

  [[spirv::vert]]
  void main()
  {
    out_uv = vec2((glvert_VertexIndex << 1) & 2, glvert_VertexIndex & 2);
    glvert_Output.Position = vec4(out_uv * 2.0f + -1., 0., 1.);
  }

We embed the per-invocation computation as a pure function of the
invocation index.  The bit manipulation happens on an unsigned 32-bit
integer, modelled as `Nat` with an explicit `% 2 ^ 32` where the shift
could overflow.  The floating-point values produced (components in
{0, 2} for UV and {-1, 3, 0, 1} for position) are all exactly
representable, and the arithmetic `uv * 2 + -1` on them is exact, so we
model the float components as rationals.
-/

namespace FullScreenVert

/-- A 2-component float vector (`vec2`), float values modelled exactly
as rationals. -/
structure Vec2 where
  x : ℚ
  y : ℚ
deriving DecidableEq, Repr

/-- A 4-component float vector (`vec4`). -/
structure Vec4 where
  x : ℚ
  y : ℚ
  z : ℚ
  w : ℚ
deriving DecidableEq, Repr

/-- `(glvert_VertexIndex << 1) & 2`, on a 32-bit unsigned index:
the shift wraps modulo `2 ^ 32`. -/
def uv_x_bits (index : Nat) : Nat := ((index <<< 1) % 2 ^ 32) &&& 2

/-- `glvert_VertexIndex & 2`. -/
def uv_y_bits (index : Nat) : Nat := index &&& 2

/-- `out_uv = vec2((glvert_VertexIndex << 1) & 2, glvert_VertexIndex & 2)`:
the two bit-manipulation results, converted to float. -/
def out_uv (index : Nat) : Vec2 := ⟨(uv_x_bits index : ℚ), (uv_y_bits index : ℚ)⟩

/-- `glvert_Output.Position = vec4(out_uv * 2.0f + -1., 0., 1.)`:
both UV components are scaled and biased, then `z = 0`, `w = 1`. -/
def positionOf (index : Nat) : Vec4 :=
  ⟨(out_uv index).x * 2 + -1, (out_uv index).y * 2 + -1, 0, 1⟩

/-- The whole shader invocation: index to (UV, clip-space position). -/
def shaderMain (index : Nat) : Vec2 × Vec4 := (out_uv index, positionOf index)

/-- The spec's own wording of the UV derivation, for the refinement
claim C4: "let `a = (index shifted left by 1 bit) bitwise-AND 2`; let
`b = index bitwise-AND 2`. UV = `(a, b)` interpreted as floating-point."
(No 32-bit wrap appears in the spec's wording.) -/
def uv_spec (index : Nat) : Vec2 :=
  ⟨(((index <<< 1) &&& 2 : Nat) : ℚ), ((index &&& 2 : Nat) : ℚ)⟩

/-- A draw call: each invocation of the batch runs the shader on its own
index; there is no state threaded between invocations because the shader
has none. -/
def drawBatch (indices : List Nat) : List (Vec2 × Vec4) :=
  indices.map shaderMain

/-- The observable environment of one invocation: its two output slots
(`out_uv` at location 0 and the built-in `Position`), together with an
arbitrary remainder `other` standing for every other piece of observable
state. -/
structure ShaderEnv (σ : Type) where
  out_uv : Vec2
  Position : Vec4
  other : σ

/-- Execution of `main` on an environment, statement by statement:
first `out_uv` is assigned, then `Position` is computed from the value
just stored in `out_uv`.  Nothing else is read or written. -/
def mainExec {σ : Type} (index : Nat) (e : ShaderEnv σ) : ShaderEnv σ :=
  let e1 : ShaderEnv σ :=
    { e with out_uv := ⟨(uv_x_bits index : ℚ), (uv_y_bits index : ℚ)⟩ }
  let e2 : ShaderEnv σ :=
    { e1 with Position := ⟨e1.out_uv.x * 2 + -1, e1.out_uv.y * 2 + -1, 0, 1⟩ }
  e2

/-! Geometry: exact point-in-triangle over the rationals. -/

/-- Signed edge function: twice the signed area of triangle `a b p`. -/
def edgeFn (a b p : ℚ × ℚ) : ℚ :=
  (b.1 - a.1) * (p.2 - a.2) - (b.2 - a.2) * (p.1 - a.1)

/-- `p` lies inside or on the boundary of triangle `a b c`
(orientation-independent: all three edge functions share a sign). -/
def inTriangle (a b c p : ℚ × ℚ) : Prop :=
  (0 ≤ edgeFn a b p ∧ 0 ≤ edgeFn b c p ∧ 0 ≤ edgeFn c a p) ∨
  (edgeFn a b p ≤ 0 ∧ edgeFn b c p ≤ 0 ∧ edgeFn c a p ≤ 0)

instance (a b c p : ℚ × ℚ) : Decidable (inTriangle a b c p) := by
  unfold inTriangle; exact inferInstance

/-- `p` lies on the closed segment from `a` to `b`. -/
def onSegment (a b p : ℚ × ℚ) : Prop :=
  edgeFn a b p = 0 ∧
  min a.1 b.1 ≤ p.1 ∧ p.1 ≤ max a.1 b.1 ∧
  min a.2 b.2 ≤ p.2 ∧ p.2 ≤ max a.2 b.2

instance (a b p : ℚ × ℚ) : Decidable (onSegment a b p) := by
  unfold onSegment; exact inferInstance

/-- The clip-space xy position the shader emits for `index`. -/
def clipXY (index : Nat) : ℚ × ℚ := ((positionOf index).x, (positionOf index).y)

/-- The UV point the shader emits for `index`. -/
def uvPt (index : Nat) : ℚ × ℚ := ((out_uv index).x, (out_uv index).y)

/-! Arithmetic characterisation of the bit manipulation. -/

/-- `x &&& 2` extracts bit 1: it equals `2 * (x / 2 % 2)`. -/
theorem and_two_eq (x : Nat) : x &&& 2 = 2 * (x / 2 % 2) := by
  have h : x &&& 2 ^ 1 = (x.testBit 1).toNat * 2 ^ 1 := Nat.and_two_pow x 1
  simp only [pow_one] at h
  rw [h, Nat.testBit_to_div_mod]
  simp only [pow_one]
  rcases Nat.mod_two_eq_zero_or_one (x / 2) with h2 | h2 <;> simp [h2]

/-- The x bit-extraction is `2 * (index % 2)`: the 32-bit wrap of the
shift is invisible to the `&&& 2`. -/
theorem uv_x_bits_eq (index : Nat) : uv_x_bits index = 2 * (index % 2) := by
  unfold uv_x_bits
  rw [and_two_eq, Nat.shiftLeft_eq]
  omega

/-- The y bit-extraction is `2 * (index % 4 / 2)`. -/
theorem uv_y_bits_eq (index : Nat) : uv_y_bits index = 2 * (index % 4 / 2) := by
  unfold uv_y_bits
  rw [and_two_eq]
  omega

/-- C1 -- For each invocation index in {0,1,2} the shader produces
exactly the spec table's outputs: index 0 gives UV=(0,0) and
position=(-1,-1,0,1); index 1 gives UV=(2,0) and position=(3,-1,0,1);
index 2 gives UV=(0,2) and position=(-1,3,0,1); exact equality. -/
theorem shader_output_table :
    shaderMain 0 = (⟨0, 0⟩, ⟨-1, -1, 0, 1⟩) ∧
    shaderMain 1 = (⟨2, 0⟩, ⟨3, -1, 0, 1⟩) ∧
    shaderMain 2 = (⟨0, 2⟩, ⟨-1, 3, 0, 1⟩) := by
  refine ⟨?_, ?_, ?_⟩ <;>
    norm_num [shaderMain, out_uv, positionOf, uv_x_bits_eq, uv_y_bits_eq, Prod.ext_iff]

/-- Helper: the three clip-space xy points the shader emits. -/
theorem clipXY_vals : clipXY 0 = (-1, -1) ∧ clipXY 1 = (3, -1) ∧ clipXY 2 = (-1, 3) := by
  refine ⟨?_, ?_, ?_⟩ <;>
    norm_num [clipXY, positionOf, out_uv, uv_x_bits_eq, uv_y_bits_eq, Prod.ext_iff]

/-- Helper: the three UV points the shader emits. -/
theorem uvPt_vals : uvPt 0 = (0, 0) ∧ uvPt 1 = (2, 0) ∧ uvPt 2 = (0, 2) := by
  refine ⟨?_, ?_, ?_⟩ <;>
    norm_num [uvPt, out_uv, uv_x_bits_eq, uv_y_bits_eq, Prod.ext_iff]

/-- C2 -- Every point of the box `[-1,1] × [-1,1]` lies inside or on the
boundary of the (unclipped) triangle whose vertices are the three
clip-space xy positions the shader emits, so after clipping to the box
the triangle fully covers it. -/
theorem box_coverage (px py : ℚ)
    (hx1 : -1 ≤ px) (hx2 : px ≤ 1) (hy1 : -1 ≤ py) (hy2 : py ≤ 1) :
    inTriangle (clipXY 0) (clipXY 1) (clipXY 2) (px, py) := by
  obtain ⟨h0, h1, h2⟩ := clipXY_vals
  rw [h0, h1, h2]
  left
  refine ⟨?_, ?_, ?_⟩ <;> simp only [edgeFn] <;> norm_num <;> linarith

/-- Witness for C2: the box center and its four corners all lie in the
emitted triangle. -/
theorem box_coverage_check :
    inTriangle (clipXY 0) (clipXY 1) (clipXY 2) (0, 0) ∧
    inTriangle (clipXY 0) (clipXY 1) (clipXY 2) (-1, -1) ∧
    inTriangle (clipXY 0) (clipXY 1) (clipXY 2) (1, -1) ∧
    inTriangle (clipXY 0) (clipXY 1) (clipXY 2) (-1, 1) ∧
    inTriangle (clipXY 0) (clipXY 1) (clipXY 2) (1, 1) :=
  ⟨box_coverage 0 0 (by norm_num) (by norm_num) (by norm_num) (by norm_num),
   box_coverage (-1) (-1) (by norm_num) (by norm_num) (by norm_num) (by norm_num),
   box_coverage 1 (-1) (by norm_num) (by norm_num) (by norm_num) (by norm_num),
   box_coverage (-1) 1 (by norm_num) (by norm_num) (by norm_num) (by norm_num),
   box_coverage 1 1 (by norm_num) (by norm_num) (by norm_num) (by norm_num)⟩

/-- C3 -- For every valid index in {0,1,2} the clip-space position
satisfies `position.xy = UV * 2 - 1`, `position.z = 0`, `position.w = 1`. -/
theorem position_from_uv (index : Nat) (h : index < 3) :
    (positionOf index).x = (out_uv index).x * 2 - 1 ∧
    (positionOf index).y = (out_uv index).y * 2 - 1 ∧
    (positionOf index).z = 0 ∧ (positionOf index).w = 1 := by
  refine ⟨?_, ?_, rfl, rfl⟩ <;> simp only [positionOf] <;> ring

/-- Witness for C3 at index 1. -/
theorem position_from_uv_check :
    (positionOf 1).x = (out_uv 1).x * 2 - 1 ∧
    (positionOf 1).y = (out_uv 1).y * 2 - 1 ∧
    (positionOf 1).z = 0 ∧ (positionOf 1).w = 1 :=
  position_from_uv 1 (by norm_num)

/-- C4 -- The UV coordinate agrees with the spec's two-step bit
manipulation `a = (index << 1) & 2`, `b = index & 2`, `UV = (a, b)` as
floating point, and in particular index 0 gives (0,0), index 1 gives
(2,0), index 2 gives (0,2). -/
theorem uv_derivation :
    (∀ index : Nat, out_uv index = uv_spec index) ∧
    out_uv 0 = ⟨0, 0⟩ ∧ out_uv 1 = ⟨2, 0⟩ ∧ out_uv 2 = ⟨0, 2⟩ := by
  refine ⟨fun index => ?_, ?_, ?_, ?_⟩
  · have hx : uv_x_bits index = (index <<< 1) &&& 2 := by
      unfold uv_x_bits
      rw [and_two_eq, and_two_eq, Nat.shiftLeft_eq]
      omega
    simp [out_uv, uv_spec, uv_y_bits, hx]
  all_goals norm_num [out_uv, uv_x_bits_eq, uv_y_bits_eq]

/-- C5 -- The map from index to (UV, position) is pure, deterministic
and stateless: a batch of n identical invocations yields n bit-identical
outputs, and in any batch each invocation's output is exactly the shader
applied to its own index, unaffected by the surrounding invocations. -/
theorem pure_deterministic (i : Nat) (h : i < 3) :
    (∀ n : Nat, drawBatch (List.replicate n i) = List.replicate n (shaderMain i)) ∧
    (∀ pre post : List Nat,
      drawBatch (pre ++ i :: post) = drawBatch pre ++ shaderMain i :: drawBatch post) := by
  constructor
  · intro n
    simp [drawBatch, List.map_replicate]
  · intro pre post
    simp [drawBatch]

/-- Witness for C5: 1000 invocations at index 2 all produce the same
output as a single invocation. -/
theorem pure_deterministic_check :
    drawBatch (List.replicate 1000 2) = List.replicate 1000 (shaderMain 2) :=
  (pure_deterministic 2 (by norm_num)).1 1000

/-- C6 -- In UV space the hypotenuse from (2,0) to (0,2) passes exactly
through the far corner (1,1) of the unit square, every point of the unit
square lies in the triangle, and the containment is strict: the triangle
has a point outside the square. -/
theorem uv_triangle_contains_unit_square (px py : ℚ)
    (hx1 : 0 ≤ px) (hx2 : px ≤ 1) (hy1 : 0 ≤ py) (hy2 : py ≤ 1) :
    onSegment (uvPt 1) (uvPt 2) (1, 1) ∧
    inTriangle (uvPt 0) (uvPt 1) (uvPt 2) (px, py) ∧
    ∃ q : ℚ × ℚ, inTriangle (uvPt 0) (uvPt 1) (uvPt 2) q ∧
      ¬(0 ≤ q.1 ∧ q.1 ≤ 1 ∧ 0 ≤ q.2 ∧ q.2 ≤ 1) := by
  obtain ⟨h0, h1, h2⟩ := uvPt_vals
  rw [h0, h1, h2]
  refine ⟨?_, ?_, ⟨(2, 0), ?_, ?_⟩⟩
  · refine ⟨?_, ?_, ?_, ?_, ?_⟩ <;> simp [edgeFn] <;> norm_num
  · left
    refine ⟨?_, ?_, ?_⟩ <;> simp only [edgeFn] <;> norm_num <;> linarith
  · left
    refine ⟨?_, ?_, ?_⟩ <;> simp only [edgeFn] <;> norm_num
  · norm_num

/-- Witness for C6 at the square's far corner (1,1). -/
theorem uv_triangle_contains_unit_square_check :
    onSegment (uvPt 1) (uvPt 2) (1, 1) ∧
    inTriangle (uvPt 0) (uvPt 1) (uvPt 2) (1, 1) ∧
    ∃ q : ℚ × ℚ, inTriangle (uvPt 0) (uvPt 1) (uvPt 2) q ∧
      ¬(0 ≤ q.1 ∧ q.1 ≤ 1 ∧ 0 ≤ q.2 ∧ q.2 ≤ 1) :=
  uv_triangle_contains_unit_square 1 1 (by norm_num) (by norm_num) (by norm_num)
    (by norm_num)

/-- C7 -- An invocation writes exactly the two outputs `out_uv` and
`Position`; every other piece of observable state is left untouched. -/
theorem frame_two_outputs {σ : Type} (index : Nat) (e : ShaderEnv σ) :
    (mainExec index e).out_uv = out_uv index ∧
    (mainExec index e).Position = positionOf index ∧
    (mainExec index e).other = e.other :=
  ⟨rfl, rfl, rfl⟩

/-- C8 -- The computation is total on the valid domain: every index in
{0,1,2} produces a UV and a position, with no error branch or partial
operation anywhere in the embedding. -/
theorem total_on_domain (index : Nat) (h : index < 3) :
    ∃ uv pos, shaderMain index = (uv, pos) :=
  ⟨out_uv index, positionOf index, rfl⟩

/-- Witness for C8 at index 0. -/
theorem total_on_domain_check : ∃ uv pos, shaderMain 0 = (uv, pos) :=
  total_on_domain 0 (by norm_num)

/-- C9 -- For every unsigned index the outputs depend only on the two
low-order bits (`index % 4`); each UV component is 0 or 2, each
position xy component is -1 or 3, `position.z = 0` and
`position.w = 1` always; index 3 yields UV=(2,2), position=(3,3,0,1). -/
theorem low_bits_determine (k : Nat) :
    shaderMain k = shaderMain (k % 4) ∧
    ((out_uv k).x = 0 ∨ (out_uv k).x = 2) ∧
    ((out_uv k).y = 0 ∨ (out_uv k).y = 2) ∧
    ((positionOf k).x = -1 ∨ (positionOf k).x = 3) ∧
    ((positionOf k).y = -1 ∨ (positionOf k).y = 3) ∧
    (positionOf k).z = 0 ∧ (positionOf k).w = 1 ∧
    shaderMain 3 = (⟨2, 2⟩, ⟨3, 3, 0, 1⟩) := by
  have hxx : uv_x_bits k = uv_x_bits (k % 4) := by
    rw [uv_x_bits_eq, uv_x_bits_eq]; omega
  have hyy : uv_y_bits k = uv_y_bits (k % 4) := by
    rw [uv_y_bits_eq, uv_y_bits_eq]; omega
  have hux : (out_uv k).x = ((2 * (k % 2) : Nat) : ℚ) := by
    simp [out_uv, uv_x_bits_eq]
  have huy : (out_uv k).y = ((2 * (k % 4 / 2) : Nat) : ℚ) := by
    simp [out_uv, uv_y_bits_eq]
  have dx : (out_uv k).x = 0 ∨ (out_uv k).x = 2 := by
    rcases Nat.mod_two_eq_zero_or_one k with h | h
    · left; rw [hux, h]; norm_num
    · right; rw [hux, h]; norm_num
  have dy : (out_uv k).y = 0 ∨ (out_uv k).y = 2 := by
    have h4 : k % 4 / 2 = 0 ∨ k % 4 / 2 = 1 := by omega
    rcases h4 with h | h
    · left; rw [huy, h]; norm_num
    · right; rw [huy, h]; norm_num
  refine ⟨?_, dx, dy, ?_, ?_, rfl, rfl, ?_⟩
  · simp [shaderMain, out_uv, positionOf, hxx, hyy]
  · rcases dx with h | h
    · left; simp only [positionOf, h]; norm_num
    · right; simp only [positionOf, h]; norm_num
  · rcases dy with h | h
    · left; simp only [positionOf, h]; norm_num
    · right; simp only [positionOf, h]; norm_num
  · norm_num [shaderMain, out_uv, positionOf, uv_x_bits_eq, uv_y_bits_eq, Prod.ext_iff]

/-- C10 -- The three valid indices map to pairwise distinct,
non-collinear clip-space positions: the emitted triangle is
non-degenerate with area exactly 8. -/
theorem triangle_nondegenerate :
    clipXY 0 ≠ clipXY 1 ∧ clipXY 0 ≠ clipXY 2 ∧ clipXY 1 ≠ clipXY 2 ∧
    edgeFn (clipXY 0) (clipXY 1) (clipXY 2) ≠ 0 ∧
    |edgeFn (clipXY 0) (clipXY 1) (clipXY 2)| / 2 = 8 := by
  obtain ⟨h0, h1, h2⟩ := clipXY_vals
  rw [h0, h1, h2]
  refine ⟨?_, ?_, ?_, ?_, ?_⟩ <;> simp [edgeFn, Prod.ext_iff] <;> norm_num

end FullScreenVert
